import Mathlib

/-!
Shallow embedding of the ss.ge real-estate scraper (Homeroida/ss.ge_scraper)
for checking its natural-language specification.

Each definition mirrors one Python function of the repository; the source
file and line range is recorded in its doc comment.  Machine integers are
modelled as `Nat`/`Int` (Python integers are unbounded, so no wrap-around is
needed); fallible operations return `Option`; the network and the
authentication endpoint are modelled as explicit oracles supplied to the
orchestrator.
-/

namespace SsGe

/-! ### Constants from `config.py` -/

/-- `config.CHECKPOINT_INTERVAL` (config.py line 64). -/
def CHECKPOINT_INTERVAL : Nat := 22

/-- `config.DEFAULT_END_PAGE` (config.py line 56). -/
def DEFAULT_END_PAGE : Nat := 15972

/-- `config.CACHE_EXPIRY` in seconds (config.py line 77). -/
def CACHE_EXPIRY : Int := 86400

/-- `config.PAGE_SIZE` (config.py line 41). -/
def PAGE_SIZE : Int := 16

/-! ### Pagination oracle: `utils/pagination_utils.py` -/

/-- The pagination-relevant `meta` object of an API response
(`meta.isLastPage`, `meta.currentPage`, `meta.totalPages`); a `none` field
models an absent JSON key. -/
structure MetaInfo where
  isLastPage : Option Bool
  currentPage : Option Int
  totalPages : Option Int
deriving DecidableEq, Repr

/-- An API response as far as `is_last_page` inspects it: the
`realStateItemModel` item list (`none` models an absent key; items are
opaque and modelled as `Nat`) and the optional `meta` object. -/
structure ApiResponse where
  realStateItemModel : Option (List Nat)
  meta : Option MetaInfo
deriving DecidableEq, Repr

/-- The `meta`-based checks of `is_last_page`
(pagination_utils.py lines 61-69): an explicit `isLastPage` flag wins,
then `currentPage >= totalPages` when both are present, else `False`. -/
def metaSignal : Option MetaInfo → Bool
  | none => false
  | some m =>
    match m.isLastPage with
    | some b => b
    | none =>
      match m.currentPage, m.totalPages with
      | some c, some t => decide (t ≤ c)
      | _, _ => false

/-- `pagination_utils.is_last_page` (pagination_utils.py lines 47-69):
an empty present item list is the first signal checked and returns `True`
regardless of everything else; otherwise the `meta` checks run in order. -/
def is_last_page (r : ApiResponse) : Bool :=
  match r.realStateItemModel with
  | some items => if items.length = 0 then true else metaSignal r.meta
  | none => metaSignal r.meta

/-! ### Response cache: `utils/cache_utils.py`

The on-disk cache directory is modelled as a map from key to
`(payload, mtime)`; `json.dump` followed by `json.load` is the identity on
JSON-representable payloads, so payloads are carried through unchanged as
values of an opaque type `α`.  Timestamps are integers. -/

/-- The cache directory: content of the file for each key together with its
filesystem mtime, or `none` when no such file exists. -/
def CacheStore (α : Type) : Type := String → Option (α × Int)

/-- `cache_utils.save_to_cache` (cache_utils.py lines 79-100): overwrite the
file for `key` with `data`; its mtime becomes the current time `now`. -/
def save_to_cache {α : Type} (store : CacheStore α) (key : String) (data : α)
    (now : Int) : CacheStore α :=
  fun k => if k = key then some (data, now) else store k

/-- `cache_utils.get_from_cache` (cache_utils.py lines 48-77): missing file
is a miss; a file whose age `now - mtime` strictly exceeds `CACHE_EXPIRY`
is a miss (not an error); otherwise the stored payload is returned. -/
def get_from_cache {α : Type} (store : CacheStore α) (key : String)
    (now : Int) : Option α :=
  match store key with
  | none => none
  | some (data, mtime) =>
    if CACHE_EXPIRY < now - mtime then none else some data

/-! ### Cache key: `cache_utils.get_cache_key` -/

/-- The request payload built by `fetch_page_data` (scraper.py lines
112-120). -/
structure SearchPayload where
  realEstateType : Int
  realEstateDealType : Int
  cityIdList : List Int
  subDistrictIds : List Int
  currencyId : Int
  pageSize : Int
deriving DecidableEq, Repr

/-- Python `str` of a list of ints, e.g. `"[95]"`, as used by
`get_cache_key` on `cityIdList`. -/
def cityListStr (l : List Int) : String :=
  "[" ++ String.intercalate ", " (l.map toString) ++ "]"

/-- The `key_parts` dict of `get_cache_key` (cache_utils.py lines 39-45):
exactly page number, real-estate type, deal type, `str(cityIdList)` and
currency id.  `subDistrictIds` and `pageSize` are not part of it. -/
structure CacheKeyParts where
  page : Int
  realEstateType : Int
  realEstateDealType : Int
  cityIdListStr : String
  currencyId : Int
deriving DecidableEq, Repr

/-- Extraction of `key_parts` from the payload (cache_utils.py lines 39-45). -/
def keyParts (page : Int) (params : SearchPayload) : CacheKeyParts :=
  { page := page
    realEstateType := params.realEstateType
    realEstateDealType := params.realEstateDealType
    cityIdListStr := cityListStr params.cityIdList
    currencyId := params.currencyId }

/-- `cache_utils.get_cache_key` (cache_utils.py lines 27-46):
`f"page_{page}_{hash(frozenset(key_parts.items()))}"`.  CPython's builtin
`hash` on a `frozenset` of tuples containing `str` values depends on the
per-process hash salt (`PYTHONHASHSEED`, randomized since Python 3.3), so
the builtin hash is modelled as an oracle `pyHash`; two distinct processes
or runs correspond to two (in general different) oracles. -/
def get_cache_key (pyHash : CacheKeyParts → Int) (page : Int)
    (params : SearchPayload) : String :=
  "page_" ++ toString page ++ "_" ++ toString (pyHash (keyParts page params))

/-- The concrete payload `fetch_page_data` always builds from `config.py`
(scraper.py lines 112-120 with config.py lines 35-44). -/
def defaultPayload : SearchPayload :=
  { realEstateType := 5
    realEstateDealType := 4
    cityIdList := [95]
    subDistrictIds := [2, 3, 4, 5, 26, 27, 44, 45, 46, 47, 48, 49, 50, 6, 7,
      8, 9, 10, 11, 13, 14, 15, 16, 17, 18, 19, 24, 32, 33, 34, 35, 36, 37,
      38, 39, 40, 41, 42, 43, 53, 1, 28, 29, 30, 31, 20, 21, 22, 23, 51, 52]
    currencyId := 1
    pageSize := 16 }

/-! ### Worker-range partition: `services/multiprocessing_scraper.py` -/

/-- The page-range partition computed by `scrape_with_multiprocessing`
(multiprocessing_scraper.py lines 173-185): `total_pages = end - start + 1`,
`pages_per_worker = max(1, total_pages // num_workers)`, worker `i` gets
`[start + i*ppw, min(end, start + i*ppw + ppw - 1)]`, and a worker whose
computed start exceeds its computed end is skipped. -/
def workerRanges (startPage endPage numWorkers : Nat) : List (Nat × Nat) :=
  let totalPages := endPage - startPage + 1
  let pagesPerWorker := max 1 (totalPages / numWorkers)
  (List.range numWorkers).filterMap fun i =>
    let workerStart := startPage + i * pagesPerWorker
    let workerEnd := min endPage (workerStart + pagesPerWorker - 1)
    if workerStart ≤ workerEnd then some (workerStart, workerEnd) else none

/-- Whether some range of `rs` contains the page `p`. -/
def coversPage (rs : List (Nat × Nat)) (p : Nat) : Bool :=
  rs.any fun r => decide (r.1 ≤ p) && decide (p ≤ r.2)

/-! ### Merge by identity: `MultiprocessingScraper.merge_property_lists` -/

/-- A property record as the merge inspects it: its optional
`applicationId` (ids are modelled as `Int`; Python truthiness of an id is
`id is not None and id != 0`) and an opaque payload tag distinguishing
records. -/
structure PropertyRecord where
  applicationId : Option Int
  payload : Nat
deriving DecidableEq, Repr

/-- Python truthiness of `prop.get("applicationId")`: `None` and `0` are
falsy. -/
def truthyId : Option Int → Bool
  | none => false
  | some v => decide (v ≠ 0)

/-- Insertion into a Python dict modelled as an insertion-ordered
association list: an existing key keeps its position and gets the new
value, a new key is appended. -/
def dictUpsert (d : List (Int × PropertyRecord)) (k : Int)
    (v : PropertyRecord) : List (Int × PropertyRecord) :=
  match d with
  | [] => [(k, v)]
  | (k1, v1) :: rest =>
    if k1 = k then (k, v) :: rest else (k1, v1) :: dictUpsert rest k v

/-- Lookup in the association-list dict. -/
def dictLookup (d : List (Int × PropertyRecord)) (k : Int) :
    Option PropertyRecord :=
  match d with
  | [] => none
  | (k1, v1) :: rest => if k1 = k then some v1 else dictLookup rest k

/-- The keys of the dict in insertion order. -/
def dictKeys (d : List (Int × PropertyRecord)) : List Int :=
  d.map Prod.fst

/-- One iteration of the `for prop in listN` loops of
`merge_property_lists` (multiprocessing_scraper.py lines 130-139):
`app_id = prop.get("applicationId"); if app_id: merged_dict[app_id] = prop`. -/
def mergeStep (d : List (Int × PropertyRecord)) (p : PropertyRecord) :
    List (Int × PropertyRecord) :=
  match p.applicationId with
  | some k => if k ≠ 0 then dictUpsert d k p else d
  | none => d

/-- Folding one whole input list into the dict. -/
def insertAll (d : List (Int × PropertyRecord)) (l : List PropertyRecord) :
    List (Int × PropertyRecord) :=
  l.foldl mergeStep d

/-- The `merged_dict` of `merge_property_lists` after both loops. -/
def mergedDict (l1 l2 : List PropertyRecord) : List (Int × PropertyRecord) :=
  insertAll (insertAll [] l1) l2

/-- `MultiprocessingScraper.merge_property_lists`
(multiprocessing_scraper.py lines 114-142): `list(merged_dict.values())`. -/
def merge_property_lists (l1 l2 : List PropertyRecord) :
    List PropertyRecord :=
  (mergedDict l1 l2).map Prod.snd

/-- The last record of `l` that would be written to dict key `k`
(later writes to a Python dict key overwrite earlier ones). -/
def lastWins : List PropertyRecord → Int → Option PropertyRecord
  | [], _ => none
  | p :: l, k =>
    match lastWins l k with
    | some q => some q
    | none => if p.applicationId = some k ∧ k ≠ 0 then some p else none

/-- `fallback a b` is `a` unless `a` is `none`; Python dict lookup with an
earlier-written default. -/
def fallback (a b : Option PropertyRecord) : Option PropertyRecord :=
  match a with
  | some x => some x
  | none => b

/-! ### The orchestrator: `RealEstateScraper.scrape_properties`
(`services/scraper.py` lines 232-363)

Property records are opaque (`α`).  The environment supplies the outcomes
of the externally visible effects:

* `fetch n page` is the outcome of the `n`-th call (0-based, across the
  whole run) to `self.fetch_page_data(page, check_last_page=...)`:
  the tri-state `result` (`none` = Python `None`, i.e. hard failure or an
  unhandled 401/403; `some items` = HTTP 200 / cache hit), the
  `need_refresh` flag (`True` exactly on the 401/403 path), and the value
  `is_last_page(response)` would have for that response body before the
  `check_last_page` gating (the orchestrator applies the
  `detect_last_page` gate, exactly as `fetch_page_data` computes
  `is_last = is_last_page(data) if check_last_page else False`).
* `auth n` tells whether the `n`-th call (0-based) to
  `self.get_auth_token()` returns a token (truthy) or `None`.
* `estimate` is the value `estimate_last_page()` would return. -/

/-- The triple returned by `RealEstateScraper.fetch_page_data`
(scraper.py line 96): `(result, need_refresh, is_last)`. -/
structure FetchRes (α : Type) where
  result : Option (List α)
  needRefresh : Bool
  isLast : Bool

/-- Environment oracle for one run of `scrape_properties`. -/
structure ScrapeEnv (α : Type) where
  fetch : Nat → Nat → FetchRes α
  auth : Nat → Bool
  estimate : Nat

/-- The mutable state of the `while` loop of `scrape_properties` together
with the persisted files.  `aborted` models having executed the `break`
at scraper.py line 311; `trace` is the list of pages passed to
`fetch_page_data`, in call order (a ghost observation used only in
statements); `ckpt` / `storedProps` / `storedFailed` model the contents of
the checkpoint / data / failed-pages files (`storedFailed = none` while the
failed-pages file has not been written this run). -/
structure LoopState (α : Type) where
  batch : List α
  allProps : List α
  failedPages : List Nat
  reachedLast : Bool
  aborted : Bool
  fetchIdx : Nat
  authIdx : Nat
  ckpt : Option Nat
  storedProps : List α
  storedFailed : Option (List Nat)
  trace : List Nat

/-- `failed_pages.add(current_page)`: Python set insertion, modelled as an
append of a not-yet-present element. -/
def addPage (s : List Nat) (p : Nat) : List Nat :=
  if p ∈ s then s else s ++ [p]

/-- Insertion into a sorted list, for `sorted(list(failed_pages))` in
`save_failed_pages` (file_utils.py line 75). -/
def insertSorted (p : Nat) : List Nat → List Nat
  | [] => [p]
  | q :: l => if p ≤ q then p :: q :: l else q :: insertSorted p l

/-- `sorted(list(failed_pages))`. -/
def sortPages (l : List Nat) : List Nat :=
  l.foldr insertSorted []

/-- Lines 316-340 of scraper.py, after the fetch (and possible re-auth
retry) of `page` produced `result` and the gated last-page flag `isl`:
set `reached_last_page`, append items or record a failed page (`if result:`
is Python truthiness, false both for `None` and for `[]`; the inner
`len(result) == 0` branch is therefore unreachable but kept verbatim), then
the periodic checkpoint save. -/
def handleResult {α : Type} (detect : Bool) (batchSize page : Nat)
    (s : LoopState α) (result : Option (List α)) (isl : Bool) :
    LoopState α :=
  let s1 := if isl then { s with reachedLast := true } else s
  let s2 :=
    match result with
    | some items =>
      if items.length ≠ 0 then
        if items.length = 0 ∧ detect = true then { s1 with reachedLast := true }
        else { s1 with batch := s1.batch ++ items,
                       allProps := s1.allProps ++ items }
      else { s1 with failedPages := addPage s1.failedPages page }
    | none => { s1 with failedPages := addPage s1.failedPages page }
  if batchSize ≤ s2.batch.length ∨ page % CHECKPOINT_INTERVAL = 0 then
    { s2 with storedProps := s2.allProps,
              ckpt := some page,
              storedFailed := some (sortPages s2.failedPages),
              batch := [] }
  else s2

/-- One iteration of the `while` loop body (scraper.py lines 297-340,
excluding the `current_page += 1`): fetch the page; on `need_refresh`
call `get_auth_token` once — `break` (abort) if it fails, otherwise retry
the fetch once, discarding the retry's own `need_refresh` flag — then
handle the result. -/
def stepPage {α : Type} (env : ScrapeEnv α) (detect : Bool)
    (batchSize page : Nat) (s : LoopState α) : LoopState α :=
  let fr := env.fetch s.fetchIdx page
  let s1 := { s with fetchIdx := s.fetchIdx + 1, trace := s.trace ++ [page] }
  if fr.needRefresh then
    let ok := env.auth s1.authIdx
    let s2 := { s1 with authIdx := s1.authIdx + 1 }
    if ok then
      let fr2 := env.fetch s2.fetchIdx page
      let s3 := { s2 with fetchIdx := s2.fetchIdx + 1,
                          trace := s2.trace ++ [page] }
      handleResult detect batchSize page s3 fr2.result (detect && fr2.isLast)
    else { s2 with aborted := true }
  else handleResult detect batchSize page s1 fr.result (detect && fr.isLast)

/-- The `while current_page <= end_page and not reached_last_page` loop
(scraper.py lines 296-346), fuel-based; the caller supplies fuel
`end_page + 1 - current_page`, which bounds the number of iterations
(each iteration increments the page), so the fuel never cuts the loop
short.  Returns the final `current_page` and state; a `break` leaves
`current_page` at the aborted page. -/
def scrapeLoop {α : Type} (env : ScrapeEnv α) (detect : Bool)
    (batchSize endPage : Nat) : Nat → Nat → LoopState α → Nat × LoopState α
  | 0, page, s => (page, s)
  | fuel + 1, page, s =>
    if page ≤ endPage ∧ s.reachedLast = false then
      let s2 := stepPage env detect batchSize page s
      if s2.aborted then (page, s2)
      else scrapeLoop env detect batchSize endPage fuel (page + 1) s2
    else (page, s)

/-- Everything observable about one run of `scrape_properties`:
`ret` is the Python return value (`none` models returning `None`),
the `ckpt`/`storedProps`/`storedFailed` file contents, the fetch trace,
the final in-memory accumulations, the final `current_page`
(0 when the loop was never reached) and the abort flag. -/
structure RunResult (α : Type) where
  ret : Option (List α)
  ckpt : Option Nat
  storedProps : List α
  storedFailed : Option (List Nat)
  trace : List Nat
  allAccum : List α
  failedAtEnd : List Nat
  batchAtEnd : List α
  finalPage : Nat
  aborted : Bool
deriving DecidableEq, Repr

/-- Resolution of the optional `end_page` argument (scraper.py lines
266-276): explicit argument wins, else the sitemap estimate when
`detect_last_page`, else `DEFAULT_END_PAGE`. -/
def resolveEndPage {α : Type} (env : ScrapeEnv α) (endPageArg : Option Nat)
    (detect : Bool) : Nat :=
  match endPageArg with
  | some e => e
  | none => if detect then env.estimate else DEFAULT_END_PAGE

/-- The two early `return all_properties` statements of `scrape_properties`
(scraper.py lines 279-281 and 284-287): the run result before the loop was
ever reached; the store is left as loaded. -/
def returnAccumulated {α : Type} (ckptFile : Option Nat) (dataFile : List α) :
    RunResult α :=
  { ret := some dataFile, ckpt := ckptFile, storedProps := dataFile,
    storedFailed := none, trace := [], allAccum := dataFile,
    failedAtEnd := [], batchAtEnd := [], finalPage := 0, aborted := false }

/-- The loop-entry state of `scrape_properties` (scraper.py lines 290-294):
empty batch, in-memory records as loaded from the data file, fresh failed
set, one auth call (index 0) already consumed by the initial
`get_auth_token` at line 284. -/
def initState {α : Type} (ckptFile : Option Nat) (dataFile : List α) :
    LoopState α :=
  { batch := [], allProps := dataFile, failedPages := [],
    reachedLast := false, aborted := false, fetchIdx := 0, authIdx := 1,
    ckpt := ckptFile, storedProps := dataFile, storedFailed := none,
    trace := [] }

/-- The tail of `scrape_properties` after the loop (scraper.py lines
348-363): the final save — guarded by `if current_batch:` — writes
`min(current_page - 1, end_page)` as the checkpoint, and the return value
is `all_properties` inside `if retry_failed and failed_pages:` and Python
`None` (modelled `none`) on every other path, since the function body ends
there. -/
def finalizeRun {α : Type} (retryFailed : Bool) (endPage : Nat)
    (out : Nat × LoopState α) : RunResult α :=
  let finalPage := out.1
  let s := out.2
  let s2 :=
    if s.batch.isEmpty then s
    else
      { s with storedProps := s.allProps,
               ckpt := some (min (finalPage - 1) endPage),
               storedFailed := some (sortPages s.failedPages) }
  let ret :=
    if retryFailed ∧ s2.failedPages ≠ [] then some s2.allProps else none
  { ret := ret, ckpt := s2.ckpt, storedProps := s2.storedProps,
    storedFailed := s2.storedFailed, trace := s2.trace,
    allAccum := s2.allProps, failedAtEnd := s2.failedPages,
    batchAtEnd := s2.batch, finalPage := finalPage, aborted := s2.aborted }

/-- `RealEstateScraper.scrape_properties` (scraper.py lines 232-363).
`ckptFile` is the prior checkpoint file content (`load_checkpoint` yields
`data.get("last_page", 0)`, i.e. 0 when absent), `dataFile` the prior data
file content (`load_properties`).  Faithful to the source, including:
the idempotent early return (line 279), the return-accumulated-on-no-token
path (line 287), the loop started at `max(last_page + 1, start_page)`
(line 293), and the `finalizeRun` tail. -/
def scrape_properties {α : Type} (env : ScrapeEnv α) (ckptFile : Option Nat)
    (dataFile : List α) (startPage : Nat) (endPageArg : Option Nat)
    (batchSize : Nat) (retryFailed detect : Bool) : RunResult α :=
  let lastPage := ckptFile.getD 0
  let endPage := resolveEndPage env endPageArg detect
  if endPage ≤ lastPage then returnAccumulated ckptFile dataFile
  else if env.auth 0 = false then returnAccumulated ckptFile dataFile
  else
    let initPage := max (lastPage + 1) startPage
    finalizeRun retryFailed endPage
      (scrapeLoop env detect batchSize endPage (endPage + 1 - initPage)
        initPage (initState ckptFile dataFile))

/-! ### Concrete environments used in the concrete-run theorems -/

/-- Every fetch succeeds with one record (tagged 7), auth always works. -/
def envAllOk : ScrapeEnv Nat :=
  { fetch := fun _ _ =>
      { result := some [7], needRefresh := false, isLast := false },
    auth := fun _ => true, estimate := 50 }

/-- First fetch succeeds with one record; every later fetch exhausts its
retries and fails (`fetch_page_data` returns `(None, False, False)`). -/
def envPageTwoFails : ScrapeEnv Nat :=
  { fetch := fun i _ =>
      if i = 0 then { result := some [5], needRefresh := false, isLast := false }
      else { result := none, needRefresh := false, isLast := false },
    auth := fun _ => true, estimate := 0 }

/-- The first two fetch calls hit HTTP 401
(`fetch_page_data` returns `(None, True, False)`), so the first page's
fetch and its post-re-auth retry both report an expired token; later calls
succeed.  Re-authentication itself always succeeds. -/
def envAuthTwice : ScrapeEnv Nat :=
  { fetch := fun i _ =>
      if i ≤ 1 then { result := none, needRefresh := true, isLast := false }
      else { result := some [3], needRefresh := false, isLast := false },
    auth := fun _ => true, estimate := 0 }

/-- Every fetch succeeds with HTTP 200 and an empty item list, for which
`is_last_page` reports `True`. -/
def envEmptyPage : ScrapeEnv Nat :=
  { fetch := fun _ _ =>
      { result := some [], needRefresh := false, isLast := true },
    auth := fun _ => true, estimate := 0 }

/-!
## Theorems

First, bookkeeping lemmas about the loop body and the loop.
-/

/-- The result-handling tail of an iteration touches neither the fetch
trace, the call counters, nor the abort flag. -/
theorem handleResult_preserve {α : Type} (detect : Bool)
    (batchSize page : Nat) (s : LoopState α) (result : Option (List α))
    (isl : Bool) :
    (handleResult detect batchSize page s result isl).trace = s.trace
    ∧ (handleResult detect batchSize page s result isl).fetchIdx = s.fetchIdx
    ∧ (handleResult detect batchSize page s result isl).authIdx = s.authIdx
    ∧ (handleResult detect batchSize page s result isl).aborted
      = s.aborted := by
  rcases result with _ | items <;>
    by_cases hisl : isl <;>
      simp [handleResult, hisl] <;> split_ifs <;> simp

/-- `(l ++ [a]).getLast? = some a`. -/
theorem trace_getLast_append {γ : Type} (l : List γ) (a : γ) :
    (l ++ [a]).getLast? = some a := by
  induction l with
  | nil => rfl
  | cons x xs ih =>
    cases xs <;> simp_all

/-- The run tail does not change the fields the loop already fixed: the
abort flag, the loop-exit batch, the trace, the in-memory records, the
failed set and the final page survive `finalizeRun` unchanged. -/
theorem finalizeRun_fields {α : Type} (retryFailed : Bool) (endPage : Nat)
    (out : Nat × LoopState α) :
    (finalizeRun retryFailed endPage out).aborted = out.2.aborted
    ∧ (finalizeRun retryFailed endPage out).batchAtEnd = out.2.batch
    ∧ (finalizeRun retryFailed endPage out).trace = out.2.trace
    ∧ (finalizeRun retryFailed endPage out).allAccum = out.2.allProps
    ∧ (finalizeRun retryFailed endPage out).failedAtEnd = out.2.failedPages
    ∧ (finalizeRun retryFailed endPage out).finalPage = out.1 := by
  simp only [finalizeRun]
  split <;> simp

/-- When the loop exits with a non-empty batch, the run tail performs the
final save: the persisted checkpoint becomes
`min(current_page - 1, end_page)`. -/
theorem finalizeRun_ckpt {α : Type} (retryFailed : Bool) (endPage : Nat)
    (out : Nat × LoopState α) (h : out.2.batch.isEmpty = false) :
    (finalizeRun retryFailed endPage out).ckpt
      = some (min (out.1 - 1) endPage) := by
  simp only [finalizeRun, h]
  simp

/-- One loop iteration appends the fetched page to the trace once, or twice
when a token refresh caused a retry of the same page. -/
theorem stepPage_trace {α : Type} (env : ScrapeEnv α) (detect : Bool)
    (batchSize page : Nat) (s : LoopState α) :
    (stepPage env detect batchSize page s).trace = s.trace ++ [page]
    ∨ (stepPage env detect batchSize page s).trace
      = s.trace ++ [page, page] := by
  by_cases h1 : (env.fetch s.fetchIdx page).needRefresh
  · by_cases h2 : env.auth s.authIdx
    · right
      simp only [stepPage, h1, h2, if_true]
      rw [(handleResult_preserve _ _ _ _ _ _).1]
      simp
    · left
      simp [stepPage, h1, h2]
  · left
    rw [Bool.not_eq_true] at h1
    simp only [stepPage, h1, Bool.false_eq_true, if_false]
    rw [(handleResult_preserve _ _ _ _ _ _).1]

/-- Unfolding of one fuel step of the loop. -/
theorem scrapeLoop_succ {α : Type} (env : ScrapeEnv α) (detect : Bool)
    (batchSize endPage fuel page : Nat) (s : LoopState α) :
    scrapeLoop env detect batchSize endPage (fuel + 1) page s =
      if page ≤ endPage ∧ s.reachedLast = false then
        let s2 := stepPage env detect batchSize page s
        if s2.aborted then (page, s2)
        else scrapeLoop env detect batchSize endPage fuel (page + 1) s2
      else (page, s) := rfl

/-- Exit characterization of a non-aborted loop: either the loop never ran
(its result is exactly the input page and state), or the final
`current_page` is one past the last attempted page: the trace ends in
`finalPage - 1`, which lies between the entry page and `end_page`. -/
theorem scrapeLoop_exit_char {α : Type} (env : ScrapeEnv α) (detect : Bool)
    (batchSize endPage : Nat) :
    ∀ (fuel page : Nat) (s : LoopState α),
      (scrapeLoop env detect batchSize endPage fuel page s).2.aborted
        = false →
      scrapeLoop env detect batchSize endPage fuel page s = (page, s)
      ∨ ((scrapeLoop env detect batchSize endPage fuel page s).2.trace.getLast?
          = some ((scrapeLoop env detect batchSize endPage fuel page s).1 - 1)
        ∧ page ≤ (scrapeLoop env detect batchSize endPage fuel page s).1 - 1
        ∧ (scrapeLoop env detect batchSize endPage fuel page s).1 - 1
          ≤ endPage) := by
  intro fuel
  induction fuel with
  | zero => intro page s _; left; rfl
  | succ fuel ih =>
    intro page s h
    rw [scrapeLoop_succ] at h ⊢
    by_cases hc : page ≤ endPage ∧ s.reachedLast = false
    · rw [if_pos hc] at h ⊢
      by_cases ha : (stepPage env detect batchSize page s).aborted
      · rw [if_pos ha] at h
        exact absurd h (by simp [ha])
      · rw [if_neg ha] at h ⊢
        rcases ih (page + 1) (stepPage env detect batchSize page s) h with
          heq | ⟨hlast, hge, hle⟩
        · right
          rw [heq]
          refine ⟨?_, by omega, by simpa using hc.1⟩
          rcases stepPage_trace env detect batchSize page s with ht | ht <;>
            simp only [ht, Nat.add_sub_cancel]
          · exact trace_getLast_append _ _
          · rw [show s.trace ++ [page, page] = (s.trace ++ [page]) ++ [page]
              by simp]
            exact trace_getLast_append _ _
        · right
          exact ⟨hlast, by omega, hle⟩
    · rw [if_neg hc] at h ⊢
      left; rfl

/-- The loop only appends to the trace; every appended page is at least the
entry page, and the first appended page is exactly the entry page. -/
theorem scrapeLoop_trace_ext {α : Type} (env : ScrapeEnv α) (detect : Bool)
    (batchSize endPage : Nat) :
    ∀ (fuel page : Nat) (s : LoopState α),
      ∃ ext : List Nat,
        (scrapeLoop env detect batchSize endPage fuel page s).2.trace
          = s.trace ++ ext
        ∧ (∀ q ∈ ext, page ≤ q)
        ∧ (ext = [] ∨ ext.head? = some page) := by
  intro fuel
  induction fuel with
  | zero =>
    intro page s
    exact ⟨[], by simp [scrapeLoop], by simp, Or.inl rfl⟩
  | succ fuel ih =>
    intro page s
    rw [scrapeLoop_succ]
    by_cases hc : page ≤ endPage ∧ s.reachedLast = false
    · rw [if_pos hc]
      rcases stepPage_trace env detect batchSize page s with ht | ht
      · by_cases ha : (stepPage env detect batchSize page s).aborted
        · rw [if_pos ha]
          exact ⟨[page], by simpa using ht, by simp, Or.inr rfl⟩
        · rw [if_neg ha]
          obtain ⟨ext2, hext2, hmem2, _⟩ :=
            ih (page + 1) (stepPage env detect batchSize page s)
          refine ⟨[page] ++ ext2, ?_, ?_, Or.inr rfl⟩
          · rw [hext2, ht, List.append_assoc]
          · intro q hq
            rcases List.mem_append.mp hq with hq | hq
            · simp at hq; omega
            · have := hmem2 q hq; omega
      · by_cases ha : (stepPage env detect batchSize page s).aborted
        · rw [if_pos ha]
          exact ⟨[page, page], by simpa using ht, by simp, Or.inr rfl⟩
        · rw [if_neg ha]
          obtain ⟨ext2, hext2, hmem2, _⟩ :=
            ih (page + 1) (stepPage env detect batchSize page s)
          refine ⟨[page, page] ++ ext2, ?_, ?_, Or.inr rfl⟩
          · rw [hext2, ht, List.append_assoc]
          · intro q hq
            rcases List.mem_append.mp hq with hq | hq
            · simp at hq; omega
            · have := hmem2 q hq; omega
    · rw [if_neg hc]
      exact ⟨[], by simp, by simp, Or.inl rfl⟩

/-- C1: a run of `scrape_properties` that enters the fetch loop, completes
cleanly and ends with an empty failed-pages set returns Python `None`
(`ret = none`), not the accumulated record list — both pages succeeded and
`[7, 7]` was accumulated, yet the run's return value is `None`, because the
only terminal `return all_properties` is nested inside
`if retry_failed and failed_pages:` (scraper.py lines 360-363).  This
contradicts the claim (and the function's own docstring, scraper.py lines
258-259). -/
theorem scrape_clean_run_returns_none :
    (scrape_properties envAllOk none [] 1 (some 2) 100 true true).ret = none
    ∧ (scrape_properties envAllOk none [] 1 (some 2) 100 true true).allAccum
      = [7, 7] := by
  decide

/-- C2: partitioning pages 1-100 across 3 workers yields
`[(1, 33), (34, 66), (67, 99)]` — contiguous and non-overlapping, but page
100 is covered by no worker, so the partition is not gap-free over
`[start_page, end_page]` as the claim states: the integer-division
remainder pages are silently dropped
(multiprocessing_scraper.py lines 173-185). -/
theorem workerRanges_drop_remainder :
    workerRanges 1 100 3 = [(1, 33), (34, 66), (67, 99)]
    ∧ coversPage (workerRanges 1 100 3) 100 = false := by
  decide

/-- C3 counterexample: a run over pages 1-2 with `batch_size = 1` where
page 1 succeeds (periodic flush at page 1 empties the batch) and page 2
fails: the loop exits with an empty batch, the end-of-range flush
(scraper.py lines 348-352) is skipped because it is guarded by
`if current_batch:`, and the final persisted checkpoint is 1 while the
last attempted page is 2 — refuting the claim that the final persisted
`last_completed_page` always equals the last attempted page. -/
theorem final_checkpoint_lags_last_attempt :
    (scrape_properties envPageTwoFails none [] 1 (some 2) 1 true
      true).trace.getLast? = some 2
    ∧ (scrape_properties envPageTwoFails none [] 1 (some 2) 1 true
      true).ckpt = some 1
    ∧ (scrape_properties envPageTwoFails none [] 1 (some 2) 1 true
      true).ckpt ≠ some 2 := by
  decide

/-- C3 as amended: the end-of-range flush runs only when the in-memory
batch is non-empty at loop exit.  When it does run and the run was not
auth-aborted, the persisted `last_completed_page` does equal the true last
attempted page (the final write is `min(current_page - 1, end_page)`, which
then equals `current_page - 1`, the page the trace ends with) — even when
that write falls outside the periodic checkpoint interval.  When the batch
is empty at exit the final write is skipped entirely (see the
counterexample). -/
theorem final_flush_records_last_attempt {α : Type} (env : ScrapeEnv α)
    (ckptFile : Option Nat) (dataFile : List α) (startPage : Nat)
    (endPageArg : Option Nat) (batchSize : Nat) (retryFailed detect : Bool)
    (r : RunResult α)
    (hr : r = scrape_properties env ckptFile dataFile startPage endPageArg
      batchSize retryFailed detect)
    (hab : r.aborted = false) (hb : r.batchAtEnd ≠ []) :
    r.ckpt = some (r.finalPage - 1)
    ∧ r.trace.getLast? = some (r.finalPage - 1) := by
  subst hr
  simp only [scrape_properties] at hab hb ⊢
  by_cases h1 : resolveEndPage env endPageArg detect ≤ ckptFile.getD 0
  · rw [if_pos h1] at hb
    simp [returnAccumulated] at hb
  · rw [if_neg h1] at hab hb ⊢
    by_cases h2 : env.auth 0 = false
    · rw [if_pos h2] at hb
      simp [returnAccumulated] at hb
    · rw [if_neg h2] at hab hb ⊢
      set E := resolveEndPage env endPageArg detect with hE
      set P := max (ckptFile.getD 0 + 1) startPage with hP
      set out := scrapeLoop env detect batchSize E (E + 1 - P) P
        (initState ckptFile dataFile) with hout
      have habO : out.2.aborted = false := by
        rw [(finalizeRun_fields retryFailed E out).1] at hab
        exact hab
      have hbO : out.2.batch ≠ [] := by
        rw [(finalizeRun_fields retryFailed E out).2.1] at hb
        exact hb
      have hchar := scrapeLoop_exit_char env detect batchSize E (E + 1 - P)
        P (initState ckptFile dataFile)
      rw [← hout] at hchar
      rcases hchar habO with heq | ⟨hlast, _, hle⟩
      · rw [heq] at hbO
        simp [initState] at hbO
      · have hbe : out.2.batch.isEmpty = false := by
          cases hx : out.2.batch with
          | nil => exact absurd hx hbO
          | cons a l => rfl
        refine ⟨?_, ?_⟩
        · rw [finalizeRun_ckpt retryFailed E out hbe,
            (finalizeRun_fields retryFailed E out).2.2.2.2.2,
            min_eq_left hle]
        · rw [(finalizeRun_fields retryFailed E out).2.2.1,
            (finalizeRun_fields retryFailed E out).2.2.2.2.2]
          exact hlast

/-- Witness for C3's `final_flush_records_last_attempt`: a one-page run
whose batch (one record) is still unflushed at loop exit; the final write
records page 1, the last attempted page. -/
theorem final_flush_records_last_attempt_witness :
    (scrape_properties envAllOk none ([] : List Nat) 1 (some 1) 100 true
      true).ckpt
      = some ((scrape_properties envAllOk none ([] : List Nat) 1 (some 1)
        100 true true).finalPage - 1)
    ∧ (scrape_properties envAllOk none ([] : List Nat) 1 (some 1) 100 true
      true).trace.getLast?
      = some ((scrape_properties envAllOk none ([] : List Nat) 1 (some 1)
        100 true true).finalPage - 1) :=
  final_flush_records_last_attempt envAllOk none [] 1 (some 1) 100 true
    true _ rfl (by decide) (by decide)

/-- C4 counterexample: page 1's fetch yields AuthExpired, re-authentication
succeeds, and the retried fetch yields AuthExpired again.  The claim says
the whole run is then aborted with no further pages attempted; instead the
code discards the retry's `need_refresh` flag
(`result, _, is_last_page = ...`, scraper.py line 314), records page 1 as
failed, and goes on to fetch page 2: the trace is `[1, 1, 2]` and the run
is not aborted. -/
theorem second_auth_expired_continues_run :
    (scrape_properties envAuthTwice none [] 1 (some 2) 100 true true).trace
      = [1, 1, 2]
    ∧ (scrape_properties envAuthTwice none [] 1 (some 2) 100 true
      true).aborted = false
    ∧ (scrape_properties envAuthTwice none [] 1 (some 2) 100 true
      true).failedAtEnd = [1] := by
  decide

/-- C4 as amended: when the fetch of the current page reports
AuthExpired (`need_refresh`), the orchestrator re-authenticates exactly
once and, if re-authentication fails, aborts the run on the spot — the
loop returns immediately, no retry fetch and no further page is attempted.
If re-authentication succeeds, the page is retried exactly once (the page
occurs exactly twice in the trace, two fetch calls are consumed) and —
regardless of the retried fetch's outcome, including a second
AuthExpired, whose `need_refresh` flag is discarded — the run is NOT
aborted: the loop proceeds with the next page. -/
theorem auth_retry_once_behavior {α : Type} (env : ScrapeEnv α)
    (detect : Bool) (batchSize endPage fuel page : Nat) (s : LoopState α)
    (hcond : page ≤ endPage) (hrl : s.reachedLast = false)
    (hab : s.aborted = false)
    (hnr : (env.fetch s.fetchIdx page).needRefresh = true) :
    (env.auth s.authIdx = false →
      scrapeLoop env detect batchSize endPage (fuel + 1) page s
        = (page, { s with fetchIdx := s.fetchIdx + 1,
                          authIdx := s.authIdx + 1,
                          trace := s.trace ++ [page], aborted := true }))
    ∧ (env.auth s.authIdx = true →
        (stepPage env detect batchSize page s).aborted = false
        ∧ (stepPage env detect batchSize page s).trace
          = s.trace ++ [page, page]
        ∧ (stepPage env detect batchSize page s).fetchIdx = s.fetchIdx + 2
        ∧ scrapeLoop env detect batchSize endPage (fuel + 1) page s
            = scrapeLoop env detect batchSize endPage fuel (page + 1)
                (stepPage env detect batchSize page s)) := by
  constructor
  · intro hAuthFail
    have hstep : stepPage env detect batchSize page s
        = { s with fetchIdx := s.fetchIdx + 1, authIdx := s.authIdx + 1,
                   trace := s.trace ++ [page], aborted := true } := by
      simp [stepPage, hnr, hAuthFail]
    rw [scrapeLoop_succ, if_pos ⟨hcond, hrl⟩]
    simp only [hstep]
    simp
  · intro hAuthOk
    have hstep : stepPage env detect batchSize page s
        = handleResult detect batchSize page
            { s with fetchIdx := s.fetchIdx + 1 + 1,
                     authIdx := s.authIdx + 1,
                     trace := s.trace ++ [page] ++ [page] }
            (env.fetch (s.fetchIdx + 1) page).result
            (detect && (env.fetch (s.fetchIdx + 1) page).isLast) := by
      simp [stepPage, hnr, hAuthOk]
    have habort : (stepPage env detect batchSize page s).aborted = false := by
      rw [hstep, (handleResult_preserve _ _ _ _ _ _).2.2.2]
      exact hab
    refine ⟨habort, ?_, ?_, ?_⟩
    · rw [hstep, (handleResult_preserve _ _ _ _ _ _).1]
      simp
    · rw [hstep, (handleResult_preserve _ _ _ _ _ _).2.1]
    · rw [scrapeLoop_succ, if_pos ⟨hcond, hrl⟩]
      simp only [habort, Bool.false_eq_true, if_false]

/-- Witness for C4's `auth_retry_once_behavior`: under `envAuthTwice` the
fetch of page 1 reports AuthExpired, re-authentication succeeds, and the
iteration retries page 1 exactly once and does not abort. -/
theorem auth_retry_once_behavior_witness :
    (stepPage envAuthTwice true 100 1 (initState none ([] : List Nat))).aborted
      = false
    ∧ (stepPage envAuthTwice true 100 1
        (initState none ([] : List Nat))).trace = [1, 1] := by
  have h := (auth_retry_once_behavior envAuthTwice true 100 2 5 1
    (initState none ([] : List Nat)) (by decide) rfl rfl (by decide)).2
    (by decide)
  exact ⟨h.1, by rw [h.2.1]; simp [initState]⟩

/-- C5: a fetch that succeeds with an empty item list (`Items []`,
HTTP 200) is recorded as a failed page: `if result:` at scraper.py line
322 is Python truthiness, which is false for the empty list, so the page
lands in `failed_pages` (line 332) — the dedicated empty-list branch at
lines 323-325 is unreachable.  Here page 1 returns `Items []` and ends up
in the failed-pages set even though its attempt-cycle did not return
`Failure`, refuting the claimed "if and only if".  (The run does advance
past the page: the trace shows the page was not retried.) -/
theorem empty_items_page_recorded_failed :
    (scrape_properties envEmptyPage none [] 1 (some 3) 100 true
      true).failedAtEnd = [1]
    ∧ (scrape_properties envEmptyPage none [] 1 (some 3) 100 true
      true).trace = [1] := by
  decide

/-- C7: a resumed run with persisted checkpoint value `ckv`
(`{"last_page": ckv}`): when `ckv >= end_page` (with `end_page` the
resolved end page) the orchestrator returns the previously accumulated
records immediately and fetches nothing; otherwise every fetched page is
`>= max(ckv + 1, start_page)` — in particular strictly greater than `ckv`,
so no page up to the last checkpointed one is ever re-fetched — and the
first fetched page (if any) is exactly `max(ckv + 1, start_page)`. -/
theorem scrape_resume_behavior {α : Type} (env : ScrapeEnv α) (ckv : Nat)
    (dataFile : List α) (startPage : Nat) (endPageArg : Option Nat)
    (batchSize : Nat) (retryFailed detect : Bool) (r : RunResult α)
    (hr : r = scrape_properties env (some ckv) dataFile startPage endPageArg
      batchSize retryFailed detect) :
    (resolveEndPage env endPageArg detect ≤ ckv →
      r.trace = [] ∧ r.ret = some dataFile)
    ∧ (ckv < resolveEndPage env endPageArg detect →
        (r.trace.head? = some (max (ckv + 1) startPage) ∨ r.trace = [])
        ∧ ∀ p ∈ r.trace, ckv < p) := by
  subst hr
  simp only [scrape_properties, Option.getD_some]
  constructor
  · intro h1
    rw [if_pos h1]
    exact ⟨rfl, rfl⟩
  · intro h1
    rw [if_neg (not_le.mpr h1)]
    by_cases h2 : env.auth 0 = false
    · rw [if_pos h2]
      exact ⟨Or.inr rfl, by simp [returnAccumulated]⟩
    · rw [if_neg h2]
      set E := resolveEndPage env endPageArg detect with hE
      set P := max (ckv + 1) startPage with hP
      set out := scrapeLoop env detect batchSize E (E + 1 - P) P
        (initState (some ckv) dataFile) with hout
      obtain ⟨ext, hext, hmem, hhead⟩ := scrapeLoop_trace_ext env detect
        batchSize E (E + 1 - P) P (initState (some ckv) dataFile)
      rw [← hout] at hext
      have htr : (finalizeRun retryFailed E out).trace = ext := by
        rw [(finalizeRun_fields retryFailed E out).2.2.1, hext]
        simp [initState]
      have hPge : ckv + 1 ≤ P := le_max_left _ _
      constructor
      · rcases hhead with hnil | hh
        · right
          rw [htr, hnil]
        · left
          rw [htr]
          exact hh
      · intro p hp
        rw [htr] at hp
        have := hmem p hp
        omega

/-- Witness for C7's `scrape_resume_behavior`: resuming from checkpoint 5
with `start_page = 1` and `end_page = 7` starts fetching at page
`max(5 + 1, 1) = 6`. -/
theorem scrape_resume_behavior_witness :
    (5 : Nat) < resolveEndPage envAllOk (some 7) true
    ∧ ((scrape_properties envAllOk (some 5) ([] : List Nat) 1 (some 7) 100
        true true).trace.head? = some (max (5 + 1) 1)
      ∨ (scrape_properties envAllOk (some 5) ([] : List Nat) 1 (some 7) 100
        true true).trace = []) :=
  ⟨by decide,
    ((scrape_resume_behavior envAllOk 5 [] 1 (some 7) 100 true true _
      rfl).2 (by decide)).1⟩

/-- C9: the cache key embeds CPython's builtin `hash` of a `frozenset`
containing strings, which is salted per process (`PYTHONHASHSEED`): two
processes/runs correspond to two hash oracles, and the keys they compute
for the identical page-1 request differ, so the key is not a run-to-run
stable function of the filter shape.  (The claim's other half is genuine
and shown alongside: `pageSize` is not part of the key, so changing it
leaves the key unchanged under a fixed oracle.) -/
theorem cache_key_not_cross_run_stable :
    get_cache_key (fun _ => 0) 1 defaultPayload
      ≠ get_cache_key (fun _ => 1) 1 defaultPayload
    ∧ get_cache_key (fun _ => 0) 1 { defaultPayload with pageSize := 999 }
      = get_cache_key (fun _ => 0) 1 defaultPayload := by
  exact ⟨by decide, rfl⟩

/-- C8: cache round-trip.  `put(key, payload)` followed immediately by
`get(key)` (same clock value, so the entry's age is 0) returns the payload
unchanged, and once the entry's age strictly exceeds `CACHE_EXPIRY` the
read is a miss (`none`), not an error.  Payloads are opaque because
`json.load` inverts `json.dump` on JSON-representable values. -/
theorem cache_round_trip {α : Type} (store : CacheStore α) (key : String)
    (data : α) (now later : Int) :
    get_from_cache (save_to_cache store key data now) key now = some data
    ∧ (CACHE_EXPIRY < later - now →
        get_from_cache (save_to_cache store key data now) key later
          = none) := by
  constructor
  · simp [get_from_cache, save_to_cache, CACHE_EXPIRY]
  · intro h
    simp [get_from_cache, save_to_cache, h]

/-- Witness for C8's `cache_round_trip` at a concrete store, key, payload
and clock values. -/
theorem cache_round_trip_witness :
    get_from_cache (save_to_cache (fun _ => none) "k" (42 : Nat) 0) "k" 0
      = some 42
    ∧ CACHE_EXPIRY < (100000 : Int) - 0
    ∧ get_from_cache (save_to_cache (fun _ => none) "k" (42 : Nat) 0) "k"
        100000 = none :=
  ⟨(cache_round_trip (fun _ => none) "k" 42 0 100000).1, by decide,
    (cache_round_trip (fun _ => none) "k" 42 0 100000).2 (by decide)⟩

/-- C6: `is_last_page` checks the signals in order (a) empty item list,
(b) explicit `isLastPage` flag, (c) `currentPage >= totalPages` when both
are present.  Conjuncts: (1) an empty present item list gives `true`
regardless of all other fields; (2) with no empty-list signal, a present
`isLastPage` flag is returned as-is; (3) with neither earlier signal,
`currentPage >= totalPages` decides; (4) hence `true` when
`currentPage = totalPages` and (5) `false` when `currentPage < totalPages`;
(6) with no signal at all the result is `false`. -/
theorem is_last_page_signal_order (r : ApiResponse) :
    (r.realStateItemModel = some [] → is_last_page r = true)
    ∧ (∀ m b, r.meta = some m → m.isLastPage = some b →
        (∀ l, r.realStateItemModel = some l → l ≠ []) →
        is_last_page r = b)
    ∧ (∀ m c t, r.meta = some m → m.isLastPage = none →
        m.currentPage = some c → m.totalPages = some t →
        (∀ l, r.realStateItemModel = some l → l ≠ []) →
        is_last_page r = decide (t ≤ c))
    ∧ (∀ m c t, r.meta = some m → m.isLastPage = none →
        m.currentPage = some c → m.totalPages = some t →
        (∀ l, r.realStateItemModel = some l → l ≠ []) →
        c = t → is_last_page r = true)
    ∧ (∀ m c t, r.meta = some m → m.isLastPage = none →
        m.currentPage = some c → m.totalPages = some t →
        (∀ l, r.realStateItemModel = some l → l ≠ []) →
        c < t → is_last_page r = false)
    ∧ ((∀ l, r.realStateItemModel = some l → l ≠ []) →
        (∀ m, r.meta = some m → m.isLastPage = none ∧
          (m.currentPage = none ∨ m.totalPages = none)) →
        is_last_page r = false) := by
  obtain ⟨items, meta⟩ := r
  have metaCase : ∀ m b, meta = some m → m.isLastPage = some b →
      metaSignal meta = b := by
    rintro m b rfl h
    simp [metaSignal, h]
  have metaCmp : ∀ m c t, meta = some m → m.isLastPage = none →
      m.currentPage = some c → m.totalPages = some t →
      metaSignal meta = decide (t ≤ c) := by
    rintro m c t rfl h1 h2 h3
    simp [metaSignal, h1, h2, h3]
  have itemsSignal : (∀ l2, items = some l2 → l2 ≠ []) →
      is_last_page ⟨items, meta⟩ = metaSignal meta := by
    intro hne
    cases items with
    | none => simp [is_last_page]
    | some l =>
      have : l ≠ [] := hne l rfl
      simp [is_last_page, List.length_eq_zero, this]
  refine ⟨?_, ?_, ?_, ?_, ?_, ?_⟩
  · rintro h
    simp only at h
    subst h
    simp [is_last_page]
  · intro m b hm hb hne
    rw [itemsSignal hne, metaCase m b hm hb]
  · intro m c t hm h1 h2 h3 hne
    rw [itemsSignal hne, metaCmp m c t hm h1 h2 h3]
  · intro m c t hm h1 h2 h3 hne hct
    rw [itemsSignal hne, metaCmp m c t hm h1 h2 h3]
    simp [hct]
  · intro m c t hm h1 h2 h3 hne hct
    rw [itemsSignal hne, metaCmp m c t hm h1 h2 h3]
    simp [not_le.mpr hct]
  · intro hne hno
    rw [itemsSignal hne]
    cases h : meta with
    | none => simp [metaSignal]
    | some m =>
      obtain ⟨hlast, hcp⟩ := hno m h
      rcases hcp with hc | ht
      · simp [metaSignal, hlast, hc]
      · simp [metaSignal, hlast, ht]

/-- Witness for C6's `is_last_page_signal_order`: a response with a
non-empty item list and `meta = {currentPage = 3, totalPages = 3}` is
reported as last via signal (c). -/
theorem is_last_page_signal_order_witness :
    is_last_page ⟨some [1], some ⟨none, some 3, some 3⟩⟩ = true :=
  (is_last_page_signal_order ⟨some [1], some ⟨none, some 3, some 3⟩⟩).2.2.2.1
    ⟨none, some 3, some 3⟩ 3 3 rfl rfl rfl rfl
    (by intro l hl; cases hl; decide) rfl

/-! Association-list lemmas for the de-duplicating merge. -/

/-- `fallback a none = a`. -/
theorem fallback_none_right (a : Option PropertyRecord) :
    fallback a none = a := by
  cases a <;> rfl

/-- Unfolding `lastWins` on a cons cell: the tail's (later) match wins. -/
theorem lastWins_cons (p : PropertyRecord) (l : List PropertyRecord)
    (k : Int) :
    lastWins (p :: l) k
      = fallback (lastWins l k)
          (if p.applicationId = some k ∧ k ≠ 0 then some p else none) := by
  simp only [lastWins]
  cases lastWins l k <;> rfl

/-- Dict upsert then lookup: the upserted key reads back the new value,
any other key is unaffected. -/
theorem dictLookup_upsert (d : List (Int × PropertyRecord)) (k : Int)
    (v : PropertyRecord) (q : Int) :
    dictLookup (dictUpsert d k v) q
      = if q = k then some v else dictLookup d q := by
  induction d with
  | nil =>
    by_cases h : q = k
    · simp [dictUpsert, dictLookup, h]
    · simp [dictUpsert, dictLookup, h, Ne.symm h]
  | cons hd tl ih =>
    obtain ⟨k1, v1⟩ := hd
    by_cases h1 : k1 = k
    · subst h1
      by_cases hq : q = k1
      · simp [dictUpsert, dictLookup, hq]
      · simp [dictUpsert, dictLookup, hq, Ne.symm hq]
    · simp only [dictUpsert, if_neg h1, dictLookup, ih]
      by_cases hq : q = k
      · subst hq
        simp [h1]
      · simp [hq]

/-- Lookup after folding a whole record list into the dict: the last
matching record of the list wins, with the prior dict as fallback. -/
theorem dictLookup_insertAll (l : List PropertyRecord) :
    ∀ (d : List (Int × PropertyRecord)) (k : Int),
      dictLookup (insertAll d l) k
        = fallback (lastWins l k) (dictLookup d k) := by
  induction l with
  | nil => intro d k; rfl
  | cons p l ih =>
    intro d k
    rw [show insertAll d (p :: l) = insertAll (mergeStep d p) l from rfl,
      ih, lastWins_cons]
    cases hlw : lastWins l k with
    | some q => rfl
    | none =>
      simp only [fallback]
      cases hpa : p.applicationId with
      | none => simp [mergeStep, hpa]
      | some j =>
        by_cases hj : j = (0 : Int)
        · subst hj
          have hcond : ¬(some (0 : Int) = some k ∧ k ≠ 0) := by
            rintro ⟨h1, h2⟩
            exact h2 (by simpa using h1.symm)
          rw [if_neg hcond]
          rw [show mergeStep d p = d by simp [mergeStep, hpa]]
        · rw [show mergeStep d p = dictUpsert d j p by
            simp [mergeStep, hpa, hj]]
          rw [dictLookup_upsert]
          by_cases hkj : k = j
          · subst hkj
            simp [hpa, hj]
          · simp [hkj, hpa, Ne.symm hkj]

/-- A `lastWins` hit is a member of the list carrying exactly that truthy
id. -/
theorem lastWins_mem {l : List PropertyRecord} {k : Int}
    {p : PropertyRecord} (h : lastWins l k = some p) :
    p ∈ l ∧ p.applicationId = some k ∧ k ≠ 0 := by
  induction l with
  | nil => cases h
  | cons q l ih =>
    rw [lastWins_cons] at h
    cases hlw : lastWins l k with
    | some r =>
      rw [hlw] at h
      obtain rfl : r = p := by simpa [fallback] using h
      obtain ⟨h1, h2⟩ := ih hlw
      exact ⟨List.mem_cons_of_mem _ h1, h2⟩
    | none =>
      rw [hlw] at h
      simp only [fallback] at h
      split at h
      · rename_i hcond
        obtain rfl : q = p := by simpa using h
        exact ⟨List.mem_cons_self _ _, hcond⟩
      · cases h

/-- A member with a truthy matching id makes `lastWins` a hit. -/
theorem lastWins_isSome_of_mem :
    ∀ {l : List PropertyRecord} {k : Int} {p : PropertyRecord},
      p ∈ l → p.applicationId = some k → k ≠ 0 →
      (lastWins l k).isSome = true := by
  intro l
  induction l with
  | nil => intro k p h; cases h
  | cons q l ih =>
    intro k p h hid hk
    rw [lastWins_cons]
    rcases List.mem_cons.mp h with rfl | h2
    · cases hlw : lastWins l k with
      | none => simp [fallback, hid, hk]
      | some r => simp [fallback]
    · have hs := ih h2 hid hk
      cases hlw : lastWins l k with
      | none => rw [hlw] at hs; cases hs
      | some r => simp [fallback]

/-- Keys of the dict after an upsert. -/
theorem dictKeys_upsert (d : List (Int × PropertyRecord)) (k : Int)
    (v : PropertyRecord) :
    dictKeys (dictUpsert d k v)
      = if k ∈ dictKeys d then dictKeys d else dictKeys d ++ [k] := by
  induction d with
  | nil => simp [dictUpsert, dictKeys]
  | cons hd tl ih =>
    obtain ⟨k1, v1⟩ := hd
    by_cases h : k1 = k
    · subst h
      simp [dictUpsert, dictKeys]
    · have hne : ¬k = k1 := fun hh => h hh.symm
      rw [show dictUpsert ((k1, v1) :: tl) k v
          = (k1, v1) :: dictUpsert tl k v by simp [dictUpsert, h],
        show dictKeys ((k1, v1) :: dictUpsert tl k v)
          = k1 :: dictKeys (dictUpsert tl k v) from rfl,
        ih,
        show dictKeys ((k1, v1) :: tl) = k1 :: dictKeys tl from rfl]
      by_cases hm : k ∈ dictKeys tl
      · rw [if_pos hm, if_pos (List.mem_cons_of_mem _ hm)]
      · rw [if_neg hm, if_neg (by simp [List.mem_cons, hne, hm])]
        rfl

/-- Upserting preserves key distinctness. -/
theorem dictKeys_nodup_upsert (d : List (Int × PropertyRecord)) (k : Int)
    (v : PropertyRecord) (h : (dictKeys d).Nodup) :
    (dictKeys (dictUpsert d k v)).Nodup := by
  rw [dictKeys_upsert]
  split
  · exact h
  · rename_i hm
    refine List.Nodup.append h (List.nodup_singleton k) ?_
    intro a ha hb
    rw [List.mem_singleton] at hb
    subst hb
    exact hm ha

/-- Folding an input list into the dict preserves key distinctness. -/
theorem dictKeys_nodup_insertAll (l : List PropertyRecord) :
    ∀ d : List (Int × PropertyRecord), (dictKeys d).Nodup →
      (dictKeys (insertAll d l)).Nodup := by
  induction l with
  | nil => intro d h; exact h
  | cons p l ih =>
    intro d h
    rw [show insertAll d (p :: l) = insertAll (mergeStep d p) l from rfl]
    apply ih
    cases hpa : p.applicationId with
    | none => simpa [mergeStep, hpa] using h
    | some j =>
      by_cases hj : j = (0 : Int)
      · simpa [mergeStep, hpa, hj] using h
      · rw [show mergeStep d p = dictUpsert d j p by
          simp [mergeStep, hpa, hj]]
        exact dictKeys_nodup_upsert d j p h

/-- Every entry of an upserted dict is the new pair or an old entry. -/
theorem dictUpsert_mem {d : List (Int × PropertyRecord)} {k : Int}
    {v : PropertyRecord} {e : Int × PropertyRecord}
    (h : e ∈ dictUpsert d k v) : e = (k, v) ∨ e ∈ d := by
  induction d with
  | nil =>
    simp only [dictUpsert] at h
    exact Or.inl (by simpa using h)
  | cons hd tl ih =>
    obtain ⟨k1, v1⟩ := hd
    by_cases h1 : k1 = k
    · subst h1
      simp only [dictUpsert, if_pos rfl] at h
      rcases List.mem_cons.mp h with rfl | h2
      · exact Or.inl rfl
      · exact Or.inr (List.mem_cons_of_mem _ h2)
    · simp only [dictUpsert, if_neg h1] at h
      rcases List.mem_cons.mp h with rfl | h2
      · exact Or.inr (List.mem_cons_self _ _)
      · rcases ih h2 with h3 | h3
        · exact Or.inl h3
        · exact Or.inr (List.mem_cons_of_mem _ h3)

/-- Every entry ever inserted pairs a record with its own truthy id, and
this is preserved by folding input lists in. -/
theorem insertAll_entries (l : List PropertyRecord) :
    ∀ d : List (Int × PropertyRecord),
      (∀ e ∈ d, e.2.applicationId = some e.1 ∧ e.1 ≠ 0) →
      ∀ e ∈ insertAll d l, e.2.applicationId = some e.1 ∧ e.1 ≠ 0 := by
  induction l with
  | nil => intro d h; exact h
  | cons p l ih =>
    intro d h
    rw [show insertAll d (p :: l) = insertAll (mergeStep d p) l from rfl]
    apply ih
    intro e he
    cases hpa : p.applicationId with
    | none =>
      rw [mergeStep, hpa] at he
      exact h e he
    | some j =>
      by_cases hj : j = (0 : Int)
      · rw [show mergeStep d p = d by simp [mergeStep, hpa, hj]] at he
        exact h e he
      · rw [show mergeStep d p = dictUpsert d j p by
          simp [mergeStep, hpa, hj]] at he
        rcases dictUpsert_mem he with rfl | h2
        · exact ⟨hpa, hj⟩
        · exact h e h2

/-- All entries of the merged dict carry their own truthy id. -/
theorem mergedDict_entries (l1 l2 : List PropertyRecord) :
    ∀ e ∈ mergedDict l1 l2, e.2.applicationId = some e.1 ∧ e.1 ≠ 0 := by
  exact insertAll_entries l2 _
    (insertAll_entries l1 [] (by intro e he; cases he))

/-- Key membership is lookup success. -/
theorem dictKeys_lookup (d : List (Int × PropertyRecord)) (k : Int) :
    k ∈ dictKeys d ↔ (dictLookup d k).isSome = true := by
  induction d with
  | nil => simp [dictKeys, dictLookup]
  | cons hd tl ih =>
    obtain ⟨k1, v1⟩ := hd
    by_cases h : k1 = k
    · subst h
      simp [dictKeys, dictLookup]
    · simp only [dictKeys, List.map_cons, List.mem_cons, dictLookup,
        if_neg h]
      constructor
      · rintro (rfl | h2)
        · exact absurd rfl h
        · exact (ih.mp h2)
      · intro h2
        exact Or.inr (ih.mpr h2)

/-- C10: the fan-out merge keeps exactly the records carrying a truthy
`applicationId` and collapses them to one record per id, second list
winning.  Conjuncts: (1) every merged record has a truthy id — records
lacking one are dropped, not passed through; (2) the merged dict's keys
are pairwise distinct — exactly one record per id; (3) the record kept for
key `k` is the last `k`-record of `list2`, falling back to the last
`k`-record of `list1` — so `list2` wins on collision; (4) the ids present
in the output are exactly the truthy ids present in either input;
(5) the merged output is the dict's values. -/
theorem merge_property_lists_spec (l1 l2 : List PropertyRecord) :
    (∀ r ∈ merge_property_lists l1 l2, truthyId r.applicationId = true)
    ∧ (dictKeys (mergedDict l1 l2)).Nodup
    ∧ (∀ k, dictLookup (mergedDict l1 l2) k
        = fallback (lastWins l2 k) (lastWins l1 k))
    ∧ (∀ k, k ∈ dictKeys (mergedDict l1 l2)
        ↔ ∃ p, (p ∈ l1 ∨ p ∈ l2) ∧ p.applicationId = some k ∧ k ≠ 0)
    ∧ merge_property_lists l1 l2 = (mergedDict l1 l2).map Prod.snd := by
  have hlook : ∀ k, dictLookup (mergedDict l1 l2) k
      = fallback (lastWins l2 k) (lastWins l1 k) := by
    intro k
    rw [show mergedDict l1 l2 = insertAll (insertAll [] l1) l2 from rfl,
      dictLookup_insertAll, dictLookup_insertAll,
      show dictLookup [] k = none from rfl, fallback_none_right]
  refine ⟨?_, ?_, hlook, ?_, rfl⟩
  · intro r hr
    obtain ⟨e, he, hsnd⟩ := List.mem_map.mp hr
    obtain ⟨h1, h2⟩ := mergedDict_entries l1 l2 e he
    rw [← hsnd, h1]
    simp [truthyId, h2]
  · exact dictKeys_nodup_insertAll l2 _
      (dictKeys_nodup_insertAll l1 [] (by simp [dictKeys]))
  · intro k
    rw [dictKeys_lookup, hlook]
    constructor
    · intro h
      cases hlw2 : lastWins l2 k with
      | some p =>
        obtain ⟨hm, hid, hk⟩ := lastWins_mem hlw2
        exact ⟨p, Or.inr hm, hid, hk⟩
      | none =>
        rw [hlw2] at h
        cases hlw1 : lastWins l1 k with
        | some p =>
          obtain ⟨hm, hid, hk⟩ := lastWins_mem hlw1
          exact ⟨p, Or.inl hm, hid, hk⟩
        | none =>
          rw [hlw1] at h
          cases h
    · rintro ⟨p, hmem, hid, hk⟩
      rcases hmem with hm | hm
      · cases hlw2 : lastWins l2 k with
        | none =>
          rw [show fallback none (lastWins l1 k) = lastWins l1 k from rfl]
          exact lastWins_isSome_of_mem hm hid hk
        | some q => rfl
      · have hs := lastWins_isSome_of_mem hm hid hk
        cases hlw2 : lastWins l2 k with
        | none => rw [hlw2] at hs; cases hs
        | some q => rfl

/-- Witness for C10's `merge_property_lists_spec` at concrete lists:
`list1` holds a record with id 1 and an id-less record, `list2` holds a
colliding record with id 1; the merge keeps only `list2`'s record and the
id-less record is dropped. -/
theorem merge_property_lists_spec_witness :
    dictLookup (mergedDict [⟨some 1, 10⟩, ⟨none, 11⟩] [⟨some 1, 20⟩]) 1
      = some ⟨some 1, 20⟩
    ∧ merge_property_lists [⟨some 1, 10⟩, ⟨none, 11⟩] [⟨some 1, 20⟩]
      = [⟨some 1, 20⟩] := by
  have h := merge_property_lists_spec [⟨some 1, 10⟩, ⟨none, 11⟩]
    [⟨some 1, 20⟩]
  refine ⟨?_, by decide⟩
  rw [h.2.2.1 1]
  decide

end SsGe
